import Mathlib

/-!
Verification of the StockGPT backend (src/backend/main.py) against its
natural-language specification.  The Python code is shallowly embedded:
prices are exact rationals, provider calls are environment functions that
either return data or raise (Except), and the process-wide cache is an
explicit association list threaded through the resolver.
-/

set_option maxRecDepth 10000

namespace StockGPT

/-- Uppercasing of a string, modelling the Python str.upper method used at
lines 157, 298 and 301.  Defined over the character list so that it
evaluates by kernel reduction; on the ASCII symbols appearing in main.py
this agrees with Python. -/
def pyUpper (s : String) : String := String.mk (s.data.map Char.toUpper)

/-- Substring test on character lists: does the second list start with the
first one. -/
def startsWithChars : List Char → List Char → Bool
  | [], _ => true
  | _ :: _, [] => false
  | p :: ps, c :: cs => p == c && startsWithChars ps cs

/-- Substring occurrence on character lists. -/
def hasSubChars (pat : List Char) : List Char → Bool
  | [] => startsWithChars pat []
  | c :: cs => startsWithChars pat (c :: cs) || hasSubChars pat cs

/-- Occurrence of pat in hay, modelling the Python expression
pat in str(e) at line 200. -/
def strContains (hay pat : String) : Bool := hasSubChars pat.data hay.data

/-- Rounding to two decimal places, modelling the Python builtin round(x, 2)
as used throughout main.py.  Prices are modelled as exact rationals; the
builtin and this model can differ only on exact half-cent ties, which no
claim, counterexample or witness in this file touches. -/
def round2 (x : ℚ) : ℚ := ((round (x * 100) : ℤ) : ℚ) / 100

/-- Chart entry of the public quote payload (main.py lines 268-271). -/
structure ChartPoint where
  time : String
  value : ℚ
deriving DecidableEq

/-- Normalized quote payload returned by get_stock_index_data
(main.py lines 214-222, 236-246, 273-282, 300-308).  The data_points key is
present only in the success payload, hence the Option. -/
structure Quote where
  symbol : String
  current_price : ℚ
  previous_close : ℚ
  change : ℚ
  change_percent : ℚ
  chart_data : List ChartPoint
  data_points : Option Nat
  status : String
deriving DecidableEq

/-- Index label of one row of a yfinance history frame.  The Python code
calls idx.strftime with a time-of-day format or a date format (lines
258-264); both renderings, and the str fallback for indexes without
strftime, are carried as data. -/
structure BarIdx where
  hasStrftime : Bool
  timeStr : String
  dateStr : String
  strRepr : String
deriving DecidableEq

/-- One row of a yfinance history frame; only the index and the Close
column are read by main.py. -/
structure Bar where
  idx : BarIdx
  close : ℚ
deriving DecidableEq

/-- The fields of ticker.info read at main.py lines 210-211.  A missing key
is none. -/
structure Info where
  regularMarketPrice : Option ℚ
  currentPrice : Option ℚ
  previousClose : Option ℚ
deriving DecidableEq

/-- Environment of one resolver call: the behaviour of every outbound
yfinance call.  historyFetch takes the ticker symbol, the attempt number,
the period and the interval variant and returns a series or raises;
infoFetch takes ticker and attempt and returns the info dict (none models a
falsy empty dict) or raises.  processRaises models an unexpected exception
thrown while processing a fetched history frame (the try block at lines
249-290, e.g. a malformed Close column), which is re-raised at line 290 and
caught by the outer handler at line 292. -/
structure Env where
  historyFetch : String → Nat → String → String → Except String (List Bar)
  infoFetch : String → Nat → Except String (Option Info)
  processRaises : Bool

/-- The process-wide cache index_data_cache (line 137): key to
(payload, stored-at time). -/
abbrev Cache := List (String × Quote × ℚ)

/-- The cache TTL in seconds (line 138). -/
def cache_ttl : ℚ := 30

/-- The cache key built at line 144 from the raw inputs, an f-string
joining the three components with underscores.  Note the raw symbol is
used, before the uppercase normalization at line 157. -/
def cacheKey (symbol period interval : String) : String :=
  symbol ++ "_" ++ period ++ "_" ++ interval

/-- Dictionary lookup cache_key in index_data_cache (line 145). -/
def cacheLookup (c : Cache) (k : String) : Option (Quote × ℚ) :=
  (c.find? (fun e => e.1 = k)).map (fun e => e.2)

/-- The cache check of lines 145-149: a hit needs an entry whose age is
strictly below the TTL; otherwise the call proceeds to the providers. -/
def lookupFresh (c : Cache) (now : ℚ) (k : String) : Option Quote :=
  match cacheLookup c k with
  | some qt => if now - qt.2 < cache_ttl then some qt.1 else none
  | none => none

/-- Dictionary store index_data_cache[cache_key] = (result, time.time())
(lines 224, 245, 285).  Assignment shadows any previous entry. -/
def cacheInsert (c : Cache) (k : String) (q : Quote) (t : ℚ) : Cache :=
  (k, q, t) :: c

/-- Symbol normalization and ticker mapping of lines 151-161: the
uppercased symbol is looked up in the index map, otherwise the raw symbol
itself is the ticker. -/
def tickerSymbol (symbol : String) : String :=
  let su := pyUpper symbol
  if su = "SENSEX" then "^BSESN"
  else if su = "NIFTY50" then "^NSEI"
  else symbol

/-- Hardcoded mock price table of lines 231-234 and 295-298, keyed by the
uppercased symbol with default 50000. -/
def mockPrice (su : String) : ℚ :=
  if su = "SENSEX" then 75000
  else if su = "NIFTY50" then 24000
  else 50000

/-- The mock payload built at lines 236-244 (status mock_data) and lines
300-308 (status error_fallback).  No rounding is applied in the source on
this tier and change_percent is the constant 1.0. -/
def mockQuote (su status : String) : Quote :=
  let m := mockPrice su
  { symbol := su
    current_price := m
    previous_close := m * (99 / 100)
    change := m * (1 / 100)
    change_percent := 1
    chart_data := []
    data_points := none
    status := status }

/-- The or-chain of line 210: info.get regularMarketPrice or currentPrice
or previousClose with default 0.  The Python or operator skips falsy
values, i.e. a missing key (None) and the number 0. -/
def infoCurrentPrice (i : Info) : ℚ :=
  let a := i.regularMarketPrice.getD 0
  if a ≠ 0 then a
  else
    let b := i.currentPrice.getD 0
    if b ≠ 0 then b
    else i.previousClose.getD 0

/-- The limited_data payload of lines 214-222, built from the info dict
current price and previous close. -/
def limitedQuote (su : String) (cp pc : ℚ) : Quote :=
  { symbol := su
    current_price := round2 cp
    previous_close := round2 pc
    change := round2 (cp - pc)
    change_percent := round2 (if pc ≠ 0 then (cp - pc) / pc * 100 else 0)
    chart_data := []
    data_points := none
    status := "limited_data" }

/-- Chart label selection of lines 256-266: indexes with strftime are
rendered as time-of-day exactly when the requested interval is one of 5m,
15m, 1h, and as a date otherwise; other indexes fall back to str(idx). -/
def chartLabel (interval : String) (idx : BarIdx) : String :=
  if idx.hasStrftime then
    if interval = "5m" ∨ interval = "15m" ∨ interval = "1h" then idx.timeStr
    else idx.dateStr
  else idx.strRepr

/-- The success payload of lines 249-282: current price is the last close,
previous close the first close when the series has more than one row (else
the current price), chart points come from the last 50 rows in order. -/
def successQuote (su interval : String) (h : List Bar) : Quote :=
  let closes := h.map Bar.close
  let cur := closes.getLastD 0
  let pc := if 1 < h.length then closes.headD 0 else cur
  let tail50 := if 50 < h.length then h.drop (h.length - 50) else h
  let chart := tail50.map (fun b => ChartPoint.mk (chartLabel interval b.idx) (round2 b.close))
  { symbol := su
    current_price := round2 cur
    previous_close := round2 pc
    change := round2 (cur - pc)
    change_percent := round2 (if pc ≠ 0 then (cur - pc) / pc * 100 else 0)
    chart_data := chart
    data_points := some chart.length
    status := "success" }

/-- The inner interval-variant loop of lines 173-180: each variant is
fetched in order; an exception leaves the history variable unchanged, an
empty frame is kept as the current value, and the first non-empty frame
breaks out.  Returns the final history value and the list of variants that
were actually fetched. -/
def tryVariants (fetch : String → Except String (List Bar)) :
    List String → Option (List Bar) → Option (List Bar) × List String
  | [], hist => (hist, [])
  | iv :: rest, hist =>
    match fetch iv with
    | .error _ =>
      let r := tryVariants fetch rest hist
      (r.1, iv :: r.2)
    | .ok h =>
      if h.isEmpty then
        let r := tryVariants fetch rest (some h)
        (r.1, iv :: r.2)
      else (some h, [iv])

/-- Outcome of the history retry loop: the final history value, the
(attempt, interval) pairs fetched in order, and the sleeps performed
between retries.  The except handler at lines 185-189 that would sleep 1
second guards only the loop header, logger calls and an if statement, none
of which can raise (every ticker.history exception is already caught by
the inner handler at line 178), so the handler is unreachable and the loop
never sleeps. -/
structure HistOut where
  hist : Option (List Bar)
  calls : List (Nat × String)
  sleeps : List ℚ
deriving DecidableEq

/-- The retry loop of lines 169-189: up to 3 attempts, each trying the
variants [interval, 1h, 1d]; the loop breaks as soon as the history value
is a non-empty frame.  Fuel counts the remaining attempts. -/
def historyGo (env : Env) (ticker period interval : String) :
    Nat → Nat → Option (List Bar) → HistOut
  | _, 0, hist => { hist := hist, calls := [], sleeps := [] }
  | attempt, fuel + 1, hist =>
    let tv := tryVariants (fun iv => env.historyFetch ticker attempt period iv)
      [interval, "1h", "1d"] hist
    if (tv.1.getD []).isEmpty then
      let r := historyGo env ticker period interval (attempt + 1) fuel tv.1
      { hist := r.hist
        calls := tv.2.map (fun iv => (attempt, iv)) ++ r.calls
        sleeps := r.sleeps }
    else
      { hist := tv.1, calls := tv.2.map (fun iv => (attempt, iv)), sleeps := [] }

/-- The full history retry loop with max_retries = 3 (line 170). -/
def historyLoopFull (env : Env) (ticker period interval : String) : HistOut :=
  historyGo env ticker period interval 0 3 none

/-- Rate-limit detection of line 200: the strings 429 or Too Many Requests
occur in the exception message. -/
def isRateLimited (m : String) : Bool :=
  strContains m "429" || strContains m "Too Many Requests"

/-- The info retry loop of lines 193-206: up to 3 attempts; a truthy info
dict breaks, a falsy one is kept and the loop continues, an exception
leaves info unchanged and sleeps 2 * (attempt + 1) seconds when
rate-limited, else 1 second before all but the last attempt.  Returns the
final info value and the sleep trace. -/
def infoGo (env : Env) (ticker : String) :
    Nat → Nat → Option Info → Option Info × List ℚ
  | _, 0, info => (info, [])
  | attempt, fuel + 1, info =>
    match env.infoFetch ticker attempt with
    | .ok (some i) => (some i, [])
    | .ok none => infoGo env ticker (attempt + 1) fuel none
    | .error m =>
      let s : List ℚ :=
        if isRateLimited m then [2 * (attempt + 1)]
        else if attempt < 2 then [1] else []
      let r := infoGo env ticker (attempt + 1) fuel info
      (r.1, s ++ r.2)

/-- The full info retry loop with max_retries = 3. -/
def infoLoopFull (env : Env) (ticker : String) : Option Info × List ℚ :=
  infoGo env ticker 0 3 none

/-- Lines 151-308 of get_stock_index_data after a cache miss: the history
retry loop, the info fallback, the mock tier, and the error_fallback tier
for an unexpected processing exception.  The Bool is true when the source
stores the payload to the cache (it does on every tier except
error_fallback, which returns directly from the except handler at line
300). -/
def fetchFresh (env : Env) (symbol period interval : String) : Quote × Bool :=
  let su := pyUpper symbol
  let ticker := tickerSymbol symbol
  let hres := (historyLoopFull env ticker period interval).hist
  if (hres.getD []).isEmpty then
    match (infoLoopFull env ticker).1 with
    | some i =>
      let cp := infoCurrentPrice i
      let pc := i.previousClose.getD cp
      if 0 < cp then (limitedQuote su cp pc, true)
      else (mockQuote su "mock_data", true)
    | none => (mockQuote su "mock_data", true)
  else
    if env.processRaises then (mockQuote su "error_fallback", false)
    else (successQuote su interval (hres.getD []), true)

/-- The resolver get_stock_index_data (lines 140-308): cache check, then
the provider chain, storing every tier except error_fallback.  Returns the
payload and the cache after the call. -/
def get_stock_index_data (env : Env) (cache : Cache) (now : ℚ)
    (symbol period interval : String) : Quote × Cache :=
  match lookupFresh cache now (cacheKey symbol period interval) with
  | some q => (q, cache)
  | none =>
    let r := fetchFresh env symbol period interval
    (r.1, if r.2 then cacheInsert cache (cacheKey symbol period interval) r.1 now else cache)

/-! ### Zerodha holdings (endpoint /api/zerodha/holdings, lines 633-733) -/

/-- The ohlc sub-dictionary of a Kite quote; close may be missing.  The
whole dictionary can be missing or empty (falsy), which callers model as
none. -/
structure Ohlc where
  close : Option ℚ
deriving DecidableEq

/-- One Kite quote record as read by main.py: last_price and the ohlc
dictionary, both possibly missing. -/
structure QuoteData where
  last_price : Option ℚ
  ohlc : Option Ohlc
deriving DecidableEq

/-- One raw holding from kite.holdings() with the fields read at lines
662-695; each .get has the default shown in the source. -/
structure RawHolding where
  tradingsymbol : String
  exchange : String
  quantity : ℚ
  average_price : ℚ
  pnl : ℚ
deriving DecidableEq

/-- Output row of the holdings endpoint (lines 704-718). -/
structure HoldingOut where
  symbol : String
  exchange : String
  name : String
  quantity : ℚ
  averagePrice : ℚ
  currentPrice : ℚ
  prevClose : ℚ
  change : ℚ
  changePercent : ℚ
  pnl : ℚ
  pnlPercent : ℚ
  totalValue : ℚ
  investedValue : ℚ
deriving DecidableEq

/-- Extraction of current and previous price from one Kite quote record
(lines 670-674 and 679-683): last_price defaults to the holding average
price, previous close to the ohlc close when the ohlc dictionary is truthy,
else the current price. -/
def extractPrices (h : RawHolding) (qd : QuoteData) : ℚ × ℚ :=
  let cur := qd.last_price.getD h.average_price
  let pc := match qd.ohlc with
    | some o => o.close.getD cur
    | none => cur
  (cur, pc)

/-- Price resolution for one holding (lines 666-685): start from the
average price, use the batch quote when the symbol is present, otherwise
try one individual quote, swallowing any error. -/
def resolvePrices (h : RawHolding) (batch : Option QuoteData)
    (indiv : Except String (Option QuoteData)) : ℚ × ℚ :=
  match batch with
  | some qd => extractPrices h qd
  | none =>
    match indiv with
    | .ok (some qd) => extractPrices h qd
    | _ => (h.average_price, h.average_price)

/-- Processing of one holding (lines 660-718): values, the P&L selection
that prefers the computed value when the broker value has magnitude below
0.01, the percentage with the non-positive guard, and the 2-decimal
rounding of every monetary output field. -/
def processHolding (h : RawHolding) (batch : Option QuoteData)
    (indiv : Except String (Option QuoteData)) : HoldingOut :=
  let cp := resolvePrices h batch indiv
  let current_price := cp.1
  let prev_close := cp.2
  let invested_value := h.average_price * h.quantity
  let total_value := current_price * h.quantity
  let calculated_pnl := total_value - invested_value
  let pnl := if |h.pnl| < 1 / 100 then calculated_pnl else h.pnl
  let pnl_percent := if 0 < invested_value then pnl / invested_value * 100 else 0
  { symbol := h.tradingsymbol
    exchange := h.exchange
    name := h.tradingsymbol
    quantity := h.quantity
    averagePrice := round2 h.average_price
    currentPrice := round2 current_price
    prevClose := round2 prev_close
    change := round2 (current_price - prev_close)
    changePercent := round2 (if prev_close ≠ 0 then (current_price - prev_close) / prev_close * 100 else 0)
    pnl := round2 pnl
    pnlPercent := round2 pnl_percent
    totalValue := round2 total_value
    investedValue := round2 invested_value }

/-! ### Zerodha index retrieval (lines 337-510) -/

/-- One daily candle from kite.historical_data as read by main.py; the
date is carried already rendered. -/
structure Candle where
  date : String
  open_ : ℚ
  high : ℚ
  low : ℚ
  close : ℚ
  volume : ℤ
deriving DecidableEq

/-- One entry of the chartData list built at lines 429-437. -/
structure CandlePoint where
  date : String
  value : ℚ
  open_ : ℚ
  high : ℚ
  low : ℚ
  volume : ℤ
deriving DecidableEq

/-- Index payload returned by get_index_data_from_zerodha (lines 441-446). -/
structure ZPayload where
  price : ℚ
  change : ℚ
  changePercent : ℚ
  chartData : List CandlePoint
deriving DecidableEq

/-- Environment of the broker path: the recent (5-day) historical fetch and
the 1-year historical fetch, keyed by instrument token, and the quote call
keyed by the Kite symbol.  A quote reply of ok none models a reply
dictionary that does not contain the requested symbol. -/
structure BrokerEnv where
  historical5d : Nat → Except String (List Candle)
  historical1y : Nat → Except String (List Candle)
  quote : String → Except String (Option QuoteData)

/-- The Zerodha instrument token map of lines 344-347. -/
def indexToken (name : String) : Option Nat :=
  if name = "SENSEX" then some 265
  else if name = "NIFTY50" then some 256265
  else none

/-- The Zerodha symbol map of lines 350-353. -/
def indexKiteSymbol (name : String) : Option String :=
  if name = "SENSEX" then some "BSE|SENSEX"
  else if name = "NIFTY50" then some "NSE|Nifty 50"
  else none

/-- Current and previous price from the recent 5-day history (lines
367-404): last close and second-last close when available; an empty reply
is a failure; on an exception the quote call is tried, and a quote failure
is a failure.  The result is none exactly when the source returns None from
this block, some (cur, prev) otherwise. -/
def zerodhaRecentPrices (env : BrokerEnv) (tok : Nat) (sym : String) : Option (ℚ × ℚ) :=
  match env.historical5d tok with
  | .ok hist =>
    if hist.isEmpty then none
    else
      let closes := hist.map Candle.close
      let cur := closes.getLastD 0
      let prev := if 1 < hist.length then (closes.dropLast).getLastD cur else cur
      some (cur, prev)
  | .error _ =>
    match env.quote sym with
    | .ok (some qd) =>
      let cur := qd.last_price.getD 0
      let prev := match qd.ohlc with
        | some o => o.close.getD cur
        | none => cur
      some (cur, prev)
    | .ok none => some (0, 0)
    | .error _ => none

/-- The chartData list of lines 413-439: every candle of the 1-year
history, rounded; an exception leaves the list empty. -/
def zerodhaChart (env : BrokerEnv) (tok : Nat) : List CandlePoint :=
  match env.historical1y tok with
  | .ok hist => hist.map (fun c =>
      { date := c.date
        value := round2 c.close
        open_ := round2 c.open_
        high := round2 c.high
        low := round2 c.low
        volume := c.volume })
  | .error _ => []

/-- get_index_data_from_zerodha (lines 337-451): token and symbol lookup,
recent prices, the zero-price guard at line 406, change computation and the
1-year chart.  Every failure path returns none; the outer handler at line
447 also returns None, and no operation modelled here raises, so the
function is total. -/
def get_index_data_from_zerodha (env : BrokerEnv) (name : String) : Option ZPayload :=
  match indexToken name, indexKiteSymbol name with
  | some tok, some sym =>
    match zerodhaRecentPrices env tok sym with
    | none => none
    | some cp =>
      let current_price := cp.1
      let prev_close := cp.2
      if current_price = 0 then none
      else
        let change := current_price - prev_close
        let change_percent := if prev_close ≠ 0 then change / prev_close * 100 else 0
        some { price := round2 current_price
               change := round2 change
               changePercent := round2 change_percent
               chartData := zerodhaChart env tok }
  | _, _ => none

/-- One row of the /api/indexes response (lines 472-508). -/
structure IndexEntry where
  symbol : String
  name : String
  price : ℚ
  change : ℚ
  changePercent : ℚ
  chartData : List CandlePoint
  monthlyChartData : List CandlePoint
deriving DecidableEq

/-- The explicit zero-value entry appended at lines 483-491 when the broker
yields no usable data. -/
def zeroEntry (name : String) : IndexEntry :=
  { symbol := name, name := name, price := 0, change := 0, changePercent := 0
    chartData := [], monthlyChartData := [] }

/-- The /api/indexes endpoint body for a configured brokerage (lines
458-510): for each of SENSEX and NIFTY50, the broker payload when it exists
with positive price, else the zero-value entry.  The except handler at
lines 492-508 that would append mock data guards only an asyncio sleep and
dictionary reads of an already-returned value; get_index_data_from_zerodha
catches all its own exceptions, so the handler is unreachable and is not
part of the model. -/
def get_indexes (env : BrokerEnv) : List IndexEntry :=
  ["SENSEX", "NIFTY50"].map (fun name =>
    match get_index_data_from_zerodha env name with
    | some pd =>
      if 0 < pd.price then
        { symbol := name, name := name, price := pd.price, change := pd.change
          changePercent := pd.changePercent, chartData := pd.chartData
          monthlyChartData := [] }
      else zeroEntry name
    | none => zeroEntry name)

/-! ### Chat streaming generator (lines 1003-1026) -/

/-- The delta of one streamed chunk choice; content may be absent (None). -/
structure Delta where
  content : Option String
deriving DecidableEq

/-- One choice of a streamed chunk. -/
structure Choice where
  delta : Delta
deriving DecidableEq

/-- One chunk of the provider token stream. -/
structure Chunk where
  choices : List Choice
deriving DecidableEq

/-- One framed server-sent event produced by generate_stream: a content
fragment, the terminal done marker, or the terminal error marker. -/
inductive Event where
  | content (s : String)
  | done
  | error (msg : String)
deriving DecidableEq

/-- The per-chunk filter of lines 1014-1019: a content event is emitted
exactly when the chunk has a choice whose delta content is not None. -/
def processChunk (c : Chunk) : Option Event :=
  match c.choices with
  | [] => none
  | ch :: _ =>
    match ch.delta.content with
    | some s => some (Event.content s)
    | none => none

/-- generate_stream (lines 1003-1026).  The provider stream is a sequence
of items, each either a yielded chunk or an exception raised at that point
(an exception while opening the stream is an error at position 0).  The try
body iterates until exhaustion and then yields one done event; the handler
converts the first exception into one final error event.  The generator
itself never raises. -/
def generate_stream : List (Except String Chunk) → List Event
  | [] => [Event.done]
  | .error m :: _ => [Event.error m]
  | .ok c :: rest => (processChunk c).toList ++ generate_stream rest

/-! ### Specification-side predicates -/

/-- The set of fallback tiers named by the spec. -/
def statusOK (q : Quote) : Prop :=
  q.status = "success" ∨ q.status = "limited_data" ∨
  q.status = "mock_data" ∨ q.status = "error_fallback"

/-- The quote invariant that the code actually maintains: on the success
and limited_data tiers every monetary field is the 2-decimal rounding of
raw values cur and prev, with change rounded from cur - prev and
change_percent rounded from the ratio (0 when prev is 0); on the mock and
error tiers the fields are the unrounded mock values with change_percent
the constant 1. -/
def QuoteOK (q : Quote) : Prop :=
  statusOK q ∧
  ((q.status = "success" ∨ q.status = "limited_data") →
    ∃ cur prev : ℚ,
      q.current_price = round2 cur ∧
      q.previous_close = round2 prev ∧
      q.change = round2 (cur - prev) ∧
      q.change_percent = round2 (if prev ≠ 0 then (cur - prev) / prev * 100 else 0)) ∧
  ((q.status = "mock_data" ∨ q.status = "error_fallback") →
    ∃ m : ℚ,
      q.current_price = m ∧
      q.previous_close = m * (99 / 100) ∧
      q.change = m * (1 / 100) ∧
      q.change_percent = 1)

/-- Modelled from the spec: the phrase an interval that is intraday (at
most one hour), read over the standard yfinance interval strings.  Used
only to state the labelling clause of the chart claim. -/
def specIntradayLE1h (interval : String) : Bool :=
  interval = "1m" || interval = "2m" || interval = "5m" ||
  interval = "15m" || interval = "30m" || interval = "60m" || interval = "1h"

/-- A provider call that raises. -/
def IsErr {α : Type} (e : Except String α) : Prop := ∃ m, e = Except.error m

/-- The flattened order of (attempt, interval variant) probes of the
history retry loop, starting at a given attempt for a given number of
remaining attempts. -/
def flatFrom (interval : String) : Nat → Nat → List (Nat × String)
  | _, 0 => []
  | a, fuel + 1 =>
    [(a, interval), (a, "1h"), (a, "1d")] ++ flatFrom interval (a + 1) fuel

/-- One probe of the history loop: the fetched series when the call
succeeds with a non-empty frame, none otherwise. -/
def probe (env : Env) (ticker period : String) (p : Nat × String) : Option (List Bar) :=
  match env.historyFetch ticker p.1 period p.2 with
  | .ok h => if h.isEmpty then none else some h
  | .error _ => none

/-- The first non-empty series in the flattened probe order of the full
history retry loop. -/
def firstHit (env : Env) (ticker period interval : String) : Option (List Bar) :=
  (flatFrom interval 0 3).findSome? (probe env ticker period)

/-- The message of the first exception of a provider stream, if any. -/
def firstErr : List (Except String Chunk) → Option String
  | [] => none
  | .error m :: _ => some m
  | .ok _ :: rest => firstErr rest

/-- Terminal events of the chat stream transport. -/
def isTerm : Event → Bool
  | Event.done => true
  | Event.error _ => true
  | Event.content _ => false

/-- Content events of the chat stream transport. -/
def isContentEv : Event → Bool
  | Event.content _ => true
  | _ => false

/-! ### Shared lemmas -/

theorem round2_cent (k : ℤ) : round2 ((k : ℚ) / 100) = (k : ℚ) / 100 := by
  unfold round2
  rw [div_mul_cancel₀ _ (by norm_num : (100 : ℚ) ≠ 0), round_intCast]

theorem cacheLookup_none_fresh {c : Cache} {now : ℚ} {k : String}
    (h : cacheLookup c k = none) : lookupFresh c now k = none := by
  unfold lookupFresh; rw [h]

theorem cacheLookup_some_fresh {c : Cache} {now : ℚ} {k : String} {q : Quote} {t : ℚ}
    (h : cacheLookup c k = some (q, t)) :
    lookupFresh c now k = if now - t < cache_ttl then some q else none := by
  unfold lookupFresh; rw [h]

theorem lookupFresh_some_iff {c : Cache} {now : ℚ} {k : String} {q : Quote} :
    lookupFresh c now k = some q ↔
      ∃ t, cacheLookup c k = some (q, t) ∧ now - t < cache_ttl := by
  cases hc : cacheLookup c k with
  | none => simp [cacheLookup_none_fresh hc, hc]
  | some qt =>
    obtain ⟨q0, t0⟩ := qt
    rw [cacheLookup_some_fresh hc]
    by_cases ht : now - t0 < cache_ttl <;>
      simp only [ht, if_true, if_false, Option.some.injEq, hc, Prod.mk.injEq]
    · constructor
      · rintro rfl; exact ⟨t0, ⟨rfl, rfl⟩, ht⟩
      · rintro ⟨t, ⟨hq, htt⟩, _⟩; exact hq
    · constructor
      · rintro ⟨⟩
      · rintro ⟨t, ⟨hq, htt⟩, hlt⟩
        rw [← htt] at hlt
        exact absurd hlt ht

theorem lookupFresh_none_mono {c : Cache} {now1 now2 : ℚ} {k : String}
    (hle : now1 ≤ now2) (h : lookupFresh c now1 k = none) :
    lookupFresh c now2 k = none := by
  cases hc : cacheLookup c k with
  | none => exact cacheLookup_none_fresh hc
  | some qt =>
    obtain ⟨q0, t0⟩ := qt
    rw [cacheLookup_some_fresh hc] at h
    rw [cacheLookup_some_fresh hc]
    split at h
    · exact absurd h (by simp)
    · next ht =>
      rw [if_neg]
      intro h2
      exact ht (lt_of_le_of_lt (by linarith) h2)

theorem lookupFresh_insert_self (c : Cache) (k : String) (q : Quote) (t now : ℚ) :
    lookupFresh (cacheInsert c k q t) now k =
      if now - t < cache_ttl then some q else none := by
  have : cacheLookup (cacheInsert c k q t) k = some (q, t) := by
    unfold cacheLookup cacheInsert
    simp [List.find?]
  rw [cacheLookup_some_fresh this]

theorem lookupFresh_mem {c : Cache} {now : ℚ} {k : String} {q : Quote}
    (h : lookupFresh c now k = some q) : ∃ e ∈ c, e.2.1 = q := by
  rcases lookupFresh_some_iff.mp h with ⟨t, hc, _⟩
  unfold cacheLookup at hc
  cases hf : c.find? (fun e => e.1 = k) with
  | none => rw [hf] at hc; exact absurd hc (by simp)
  | some e =>
    rw [hf] at hc
    refine ⟨e, List.mem_of_find?_eq_some hf, ?_⟩
    simp only [Option.map_some'] at hc
    rw [show e.2 = (q, t) from Option.some.inj hc]

theorem gsid_hit {env : Env} {cache : Cache} {now : ℚ} {s p i : String} {q : Quote}
    (h : lookupFresh cache now (cacheKey s p i) = some q) :
    get_stock_index_data env cache now s p i = (q, cache) := by
  unfold get_stock_index_data
  rw [h]

theorem gsid_miss {env : Env} {cache : Cache} {now : ℚ} {s p i : String}
    (h : lookupFresh cache now (cacheKey s p i) = none) :
    get_stock_index_data env cache now s p i =
      ((fetchFresh env s p i).1,
        if (fetchFresh env s p i).2
        then cacheInsert cache (cacheKey s p i) (fetchFresh env s p i).1 now
        else cache) := by
  unfold get_stock_index_data
  rw [h]

theorem findSome?_map_pair {α β : Type} (l : List α) (g : α → Nat × String)
    (f : Nat × String → Option β) :
    (l.map g).findSome? f = l.findSome? (fun x => f (g x)) := by
  induction l with
  | nil => rfl
  | cons x xs ih => simp only [List.map_cons, List.findSome?_cons, ih]

theorem tryVariants_hit {fetch : String → Except String (List Bar)} :
    ∀ (ivs : List String) (hist : Option (List Bar)) (h0 : List Bar),
      ivs.findSome? (fun iv => match fetch iv with
        | .ok h => if h.isEmpty then none else some h
        | .error _ => none) = some h0 →
      (tryVariants fetch ivs hist).1 = some h0 ∧ h0.isEmpty = false
  | [], hist, h0 => by simp
  | iv :: rest, hist, h0 => by
    intro hfs
    rw [List.findSome?_cons] at hfs
    unfold tryVariants
    cases hf : fetch iv with
    | error m =>
      rw [hf] at hfs
      dsimp only at hfs ⊢
      exact tryVariants_hit rest hist h0 hfs
    | ok h =>
      rw [hf] at hfs
      dsimp only at hfs ⊢
      by_cases he : h.isEmpty
      · rw [if_pos he] at hfs ⊢
        exact tryVariants_hit rest (some h) h0 hfs
      · rw [if_neg he] at hfs ⊢
        simp only [Option.some.injEq] at hfs
        subst hfs
        exact ⟨rfl, Bool.eq_false_iff.mpr he⟩

theorem tryVariants_none {fetch : String → Except String (List Bar)} :
    ∀ (ivs : List String) (hist : Option (List Bar)),
      ivs.findSome? (fun iv => match fetch iv with
        | .ok h => if h.isEmpty then none else some h
        | .error _ => none) = none →
      ((hist.getD []).isEmpty = true) →
      (((tryVariants fetch ivs hist).1.getD []).isEmpty = true) ∧
        (tryVariants fetch ivs hist).2 = ivs
  | [], hist => by intro _ hh; exact ⟨hh, rfl⟩
  | iv :: rest, hist => by
    intro hfs hh
    rw [List.findSome?_cons] at hfs
    unfold tryVariants
    cases hf : fetch iv with
    | error m =>
      rw [hf] at hfs
      dsimp only at hfs ⊢
      have ih := tryVariants_none rest hist hfs hh
      exact ⟨ih.1, by simp [ih.2]⟩
    | ok h =>
      rw [hf] at hfs
      dsimp only at hfs ⊢
      by_cases he : h.isEmpty
      · rw [if_pos he] at hfs ⊢
        have ih := tryVariants_none rest (some h) hfs (by simpa using he)
        exact ⟨ih.1, by simp [ih.2]⟩
      · rw [if_neg he] at hfs
        exact absurd hfs (by simp)

theorem historyGo_hit {env : Env} {ticker period interval : String} :
    ∀ (fuel a : Nat) (hist : Option (List Bar)) (h0 : List Bar),
      (flatFrom interval a fuel).findSome? (probe env ticker period) = some h0 →
      ((hist.getD []).isEmpty = true) →
      (historyGo env ticker period interval a fuel hist).hist = some h0 ∧ h0 ≠ []
  | 0, a, hist, h0 => by simp [flatFrom]
  | fuel + 1, a, hist, h0 => by
    intro hfs hh
    rw [flatFrom, List.findSome?_append] at hfs
    have hseg : ([(a, interval), (a, "1h"), (a, "1d")].findSome? (probe env ticker period))
        = ([interval, "1h", "1d"].findSome? (fun iv =>
            match env.historyFetch ticker a period iv with
            | .ok h => if h.isEmpty then none else some h
            | .error _ => none)) := by
      show (([interval, "1h", "1d"].map (fun iv => (a, iv))).findSome? (probe env ticker period)) = _
      rw [findSome?_map_pair]
      rfl
    rw [hseg] at hfs
    unfold historyGo
    dsimp only
    cases hcase : [interval, "1h", "1d"].findSome? (fun iv =>
        match env.historyFetch ticker a period iv with
        | .ok h => if h.isEmpty then none else some h
        | .error _ => none) with
    | some h1 =>
      rw [hcase] at hfs
      simp only [Option.or_some, Option.some.injEq] at hfs
      subst hfs
      have hv := @tryVariants_hit (fun iv => env.historyFetch ticker a period iv)
        [interval, "1h", "1d"] hist h1 hcase
      rw [hv.1]
      simp only [Option.getD_some]
      rw [if_neg (by simp [hv.2])]
      exact ⟨rfl, by simp [← List.isEmpty_iff, hv.2]⟩
    | none =>
      rw [hcase, Option.none_or] at hfs
      have hv := @tryVariants_none (fun iv => env.historyFetch ticker a period iv)
        [interval, "1h", "1d"] hist hcase hh
      rw [if_pos hv.1]
      exact historyGo_hit fuel (a + 1) _ h0 hfs hv.1

theorem historyGo_none {env : Env} {ticker period interval : String} :
    ∀ (fuel a : Nat) (hist : Option (List Bar)),
      (flatFrom interval a fuel).findSome? (probe env ticker period) = none →
      ((hist.getD []).isEmpty = true) →
      (((historyGo env ticker period interval a fuel hist).hist.getD []).isEmpty = true) ∧
        (historyGo env ticker period interval a fuel hist).calls = flatFrom interval a fuel
  | 0, a, hist => by
    intro _ hh
    exact ⟨hh, by simp [historyGo, flatFrom]⟩
  | fuel + 1, a, hist => by
    intro hfs hh
    rw [flatFrom, List.findSome?_append] at hfs
    have hseg : ([(a, interval), (a, "1h"), (a, "1d")].findSome? (probe env ticker period))
        = ([interval, "1h", "1d"].findSome? (fun iv =>
            match env.historyFetch ticker a period iv with
            | .ok h => if h.isEmpty then none else some h
            | .error _ => none)) := by
      show (([interval, "1h", "1d"].map (fun iv => (a, iv))).findSome? (probe env ticker period)) = _
      rw [findSome?_map_pair]
      rfl
    rw [hseg] at hfs
    have hpair := Option.or_eq_none.mp hfs
    have hv := @tryVariants_none (fun iv => env.historyFetch ticker a period iv)
      [interval, "1h", "1d"] hist hpair.1 hh
    have ih := historyGo_none fuel (a + 1) _ hpair.2 hv.1
    unfold historyGo
    rw [if_pos hv.1]
    refine ⟨ih.1, ?_⟩
    simp only [ih.2, hv.2, flatFrom]
    rfl

theorem historyGo_sleeps {env : Env} {ticker period interval : String} :
    ∀ (fuel a : Nat) (hist : Option (List Bar)),
      (historyGo env ticker period interval a fuel hist).sleeps = []
  | 0, _, _ => rfl
  | fuel + 1, a, hist => by
    unfold historyGo
    dsimp only
    split
    · exact historyGo_sleeps fuel (a + 1) _
    · rfl

theorem infoLoop_allerr {env : Env} {ticker : String} {m0 m1 m2 : String}
    (h0 : env.infoFetch ticker 0 = .error m0)
    (h1 : env.infoFetch ticker 1 = .error m1)
    (h2 : env.infoFetch ticker 2 = .error m2) :
    (infoLoopFull env ticker).1 = none ∧
      (infoLoopFull env ticker).2 =
        (if isRateLimited m0 then [2] else [1]) ++
        (if isRateLimited m1 then [4] else [1]) ++
        (if isRateLimited m2 then [6] else []) := by
  unfold infoLoopFull
  show (infoGo env ticker 0 3 none).1 = none ∧ _
  unfold infoGo
  rw [h0]
  unfold infoGo
  rw [h1]
  unfold infoGo
  rw [h2]
  unfold infoGo
  constructor
  · rfl
  · norm_num

theorem quoteOK_limited (su : String) (cp pc : ℚ) : QuoteOK (limitedQuote su cp pc) := by
  refine ⟨Or.inr (Or.inl rfl), fun _ => ⟨cp, pc, rfl, rfl, rfl, rfl⟩, fun hc => absurd hc ?_⟩
  simp [limitedQuote]

theorem quoteOK_mock (su st : String) (hst : st = "mock_data" ∨ st = "error_fallback") :
    QuoteOK (mockQuote su st) := by
  refine ⟨Or.inr (Or.inr hst), fun hs => ?_, fun _ => ⟨mockPrice su, rfl, rfl, rfl, rfl⟩⟩
  rcases hst with rfl | rfl <;> rcases hs with hs | hs <;>
    exact absurd hs (by simp [mockQuote])

theorem quoteOK_success (su interval : String) (h : List Bar) :
    QuoteOK (successQuote su interval h) := by
  refine ⟨Or.inl rfl, fun _ => ?_, fun hc => absurd hc (by simp [successQuote])⟩
  exact ⟨(h.map Bar.close).getLastD 0,
    (if 1 < h.length then (h.map Bar.close).headD 0 else (h.map Bar.close).getLastD 0),
    rfl, rfl, rfl, rfl⟩

theorem fetchFresh_QuoteOK (env : Env) (s p i : String) :
    QuoteOK (fetchFresh env s p i).1 := by
  unfold fetchFresh
  dsimp only
  split
  · split
    · split
      · exact quoteOK_limited _ _ _
      · exact quoteOK_mock _ _ (Or.inl rfl)
    · exact quoteOK_mock _ _ (Or.inl rfl)
  · split
    · exact quoteOK_mock _ _ (Or.inr rfl)
    · exact quoteOK_success _ _ _

theorem fetchFresh_store_iff (env : Env) (s p i : String) :
    (fetchFresh env s p i).2 = false ↔ (fetchFresh env s p i).1.status = "error_fallback" := by
  unfold fetchFresh
  dsimp only
  split
  · split
    · split <;> simp [limitedQuote, mockQuote]
    · simp [mockQuote]
  · split
    · simp [mockQuote]
    · simp [successQuote]

theorem historyFull_allerr {env : Env} {t per i : String}
    (hh : ∀ a iv, IsErr (env.historyFetch t a per iv)) :
    (((historyLoopFull env t per i).hist.getD []).isEmpty = true) := by
  have hnone : (flatFrom i 0 3).findSome? (probe env t per) = none := by
    rw [List.findSome?_eq_none_iff]
    intro x _
    rcases hh x.1 x.2 with ⟨m, hm⟩
    unfold probe
    rw [hm]
  exact (historyGo_none 3 0 none hnone rfl).1

theorem fetchFresh_allfail (env : Env) (s p i : String)
    (hh : ∀ a iv, IsErr (env.historyFetch (tickerSymbol s) a p iv))
    (hi : ∀ a, IsErr (env.infoFetch (tickerSymbol s) a)) :
    fetchFresh env s p i = (mockQuote (pyUpper s) "mock_data", true) := by
  unfold fetchFresh
  dsimp only
  rw [if_pos (historyFull_allerr hh)]
  rcases hi 0 with ⟨m0, e0⟩
  rcases hi 1 with ⟨m1, e1⟩
  rcases hi 2 with ⟨m2, e2⟩
  rw [(infoLoop_allerr e0 e1 e2).1]

theorem cacheLookup_insert_self (c : Cache) (k : String) (q : Quote) (t : ℚ) :
    cacheLookup (cacheInsert c k q t) k = some (q, t) := by
  unfold cacheLookup cacheInsert
  simp [List.find?]

theorem generate_stream_ne_nil : ∀ items, generate_stream items ≠ []
  | [] => by simp [generate_stream]
  | .error m :: _ => by simp [generate_stream]
  | .ok c :: rest => by
    unfold generate_stream
    simp [generate_stream_ne_nil rest]

/-! ### Concrete environments used by counterexamples and witnesses -/

/-- An environment in which every provider call raises. -/
def allFailEnv : Env :=
  { historyFetch := fun _ _ _ _ => .error "fail"
    infoFetch := fun _ _ => .error "fail"
    processRaises := false }

/-- The simp set that evaluates the resolver on a concrete environment. -/
theorem allFailEnv_spec : (∀ t a p iv, IsErr (allFailEnv.historyFetch t a p iv)) ∧
    (∀ t a, IsErr (allFailEnv.infoFetch t a)) :=
  ⟨fun _ _ _ _ => ⟨"fail", rfl⟩, fun _ _ => ⟨"fail", rfl⟩⟩

/-! ### Claim C1 -/

/-- C1, counterexample: on the mock tier reached for SENSEX when every
provider call fails, the returned quote has previous_close = 74250 (not 0)
and change_percent = 1.0, but change / previous_close * 100 = 100 / 99, so
the claimed exact relation change_percent = change / previous_close * 100
is false at this input. -/
theorem c1_counterexample :
    (get_stock_index_data allFailEnv [] 0 "SENSEX" "5d" "1h").1.previous_close ≠ 0 ∧
    (get_stock_index_data allFailEnv [] 0 "SENSEX" "5d" "1h").1.change_percent ≠
      (get_stock_index_data allFailEnv [] 0 "SENSEX" "5d" "1h").1.change /
        (get_stock_index_data allFailEnv [] 0 "SENSEX" "5d" "1h").1.previous_close * 100 ∧
    (get_stock_index_data allFailEnv [] 0 "SENSEX" "5d" "1h").1.status = "mock_data" := by
  have hu : pyUpper "SENSEX" = "SENSEX" := by decide
  have hm0 : lookupFresh ([] : Cache) 0 (cacheKey "SENSEX" "5d" "1h") = none := rfl
  rw [gsid_miss hm0, fetchFresh_allfail allFailEnv "SENSEX" "5d" "1h"
    (fun a iv => allFailEnv_spec.1 _ a _ iv) (fun a => allFailEnv_spec.2 _ a)]
  norm_num [mockQuote, mockPrice, hu]

/-- C1 (amended): for every call, the returned quote has a status in
{success, limited_data, mock_data, error_fallback} and satisfies the
invariant the code maintains: on the success and limited_data tiers the
current price, previous close, change and change percent are the 2-decimal
roundings of raw values cur and prev, of cur - prev, and of the ratio
(cur - prev) / prev * 100 (0 when prev = 0); on the mock_data and
error_fallback tiers the fields are current = m, previous = 0.99 m,
change = 0.01 m and change_percent the constant 1.0 (which differs from
change / previous_close * 100 = 100 / 99).  The call never raises: the
model is a total function.  The hypothesis asks that every payload already
in the cache satisfies the same invariant, since a cache hit returns the
stored payload unchanged. -/
theorem c1_change_invariants_amended (env : Env) (cache : Cache) (now : ℚ)
    (symbol period interval : String)
    (hwf : ∀ e ∈ cache, QuoteOK e.2.1) :
    QuoteOK (get_stock_index_data env cache now symbol period interval).1 := by
  cases hl : lookupFresh cache now (cacheKey symbol period interval) with
  | some q =>
    rw [gsid_hit hl]
    obtain ⟨e, he, heq⟩ := lookupFresh_mem hl
    exact heq ▸ hwf e he
  | none =>
    rw [gsid_miss hl]
    exact fetchFresh_QuoteOK env symbol period interval

/-- C1, witness: the amended invariant theorem applied to the empty cache
(trivially well-formed) and the all-failing environment. -/
theorem c1_witness :
    (∀ e ∈ ([] : Cache), QuoteOK e.2.1) ∧
    QuoteOK (get_stock_index_data allFailEnv [] 0 "SENSEX" "5d" "1h").1 :=
  ⟨by simp, c1_change_invariants_amended allFailEnv [] 0 "SENSEX" "5d" "1h" (by simp)⟩

/-! ### Claim C2 -/

/-- C2: when the cache misses and every provider call (each history fetch
and each info fetch) raises, the resolver still returns (it is a total
function), the status is mock_data (hence in {mock_data, error_fallback}),
the mock price is 75000 for SENSEX, 24000 for NIFTY50 and 50000 otherwise,
keyed by the uppercased symbol, and the synthetic previous close is 99
percent of the mock price. -/
theorem c2_mock_tier_guarantee (env : Env) (cache : Cache) (now : ℚ)
    (symbol period interval : String)
    (hmiss : lookupFresh cache now (cacheKey symbol period interval) = none)
    (hh : ∀ a iv, IsErr (env.historyFetch (tickerSymbol symbol) a period iv))
    (hi : ∀ a, IsErr (env.infoFetch (tickerSymbol symbol) a)) :
    ((get_stock_index_data env cache now symbol period interval).1.status = "mock_data" ∨
      (get_stock_index_data env cache now symbol period interval).1.status = "error_fallback") ∧
    (get_stock_index_data env cache now symbol period interval).1.current_price =
      mockPrice (pyUpper symbol) ∧
    (get_stock_index_data env cache now symbol period interval).1.previous_close =
      mockPrice (pyUpper symbol) * (99 / 100) := by
  rw [gsid_miss hmiss, fetchFresh_allfail env symbol period interval hh hi]
  exact ⟨Or.inl rfl, rfl, rfl⟩

/-- C2, witness: the mock-tier guarantee at the all-failing environment
with an empty cache and the symbol NIFTY50. -/
theorem c2_witness :
    ((get_stock_index_data allFailEnv [] 0 "NIFTY50" "5d" "1h").1.status = "mock_data" ∨
      (get_stock_index_data allFailEnv [] 0 "NIFTY50" "5d" "1h").1.status = "error_fallback") ∧
    (get_stock_index_data allFailEnv [] 0 "NIFTY50" "5d" "1h").1.current_price =
      mockPrice (pyUpper "NIFTY50") ∧
    (get_stock_index_data allFailEnv [] 0 "NIFTY50" "5d" "1h").1.previous_close =
      mockPrice (pyUpper "NIFTY50") * (99 / 100) :=
  c2_mock_tier_guarantee allFailEnv [] 0 "NIFTY50" "5d" "1h"
    (show lookupFresh ([] : Cache) 0 (cacheKey "NIFTY50" "5d" "1h") = none from rfl)
    (fun a iv => allFailEnv_spec.1 _ a _ iv) (fun a => allFailEnv_spec.2 _ a)

/-! ### Claim C3 -/

/-- C3: cache idempotence.  First conjunct: after any first call, if the
entry for the key is still fresh at a later time now2, then a second call
at now2 returns exactly the first call payload and leaves the cache
unchanged, for every environment env2 - the second call is independent of
the providers.  Second conjunct: on a cache miss the call is exactly the
provider chain fetchFresh followed by the conditional store.  Third
conjunct: the lookup misses exactly when there is no entry or the entry age
is at least the 30-second TTL. -/
theorem c3_cache_idempotence (env1 : Env) (cache : Cache) (now1 now2 : ℚ)
    (s p i : String) (hle : now1 ≤ now2) :
    (∀ (env2 : Env) (q2 : Quote),
      lookupFresh (get_stock_index_data env1 cache now1 s p i).2 now2 (cacheKey s p i) = some q2 →
      q2 = (get_stock_index_data env1 cache now1 s p i).1 ∧
      get_stock_index_data env2 (get_stock_index_data env1 cache now1 s p i).2 now2 s p i =
        ((get_stock_index_data env1 cache now1 s p i).1,
          (get_stock_index_data env1 cache now1 s p i).2)) ∧
    (∀ (env : Env) (c : Cache) (t : ℚ),
      lookupFresh c t (cacheKey s p i) = none →
      get_stock_index_data env c t s p i =
        ((fetchFresh env s p i).1,
          if (fetchFresh env s p i).2
          then cacheInsert c (cacheKey s p i) (fetchFresh env s p i).1 t else c)) ∧
    (∀ (c : Cache) (t : ℚ),
      lookupFresh c t (cacheKey s p i) = none ↔
        ∀ q tt, cacheLookup c (cacheKey s p i) = some (q, tt) → cache_ttl ≤ t - tt) := by
  refine ⟨?_, ?_, ?_⟩
  · intro env2 q2 h2
    cases hl : lookupFresh cache now1 (cacheKey s p i) with
    | some q =>
      rw [gsid_hit hl] at h2 ⊢
      rcases lookupFresh_some_iff.mp hl with ⟨t1, hc1, _⟩
      rcases lookupFresh_some_iff.mp h2 with ⟨t2, hc2, _⟩
      rw [hc1] at hc2
      have hq : q = q2 := congrArg Prod.fst (Option.some.inj hc2)
      subst hq
      exact ⟨rfl, gsid_hit h2⟩
    | none =>
      rw [gsid_miss hl] at h2 ⊢
      cases hst : (fetchFresh env1 s p i).2 with
      | true =>
        simp only [hst, if_true] at h2 ⊢
        rw [lookupFresh_insert_self] at h2
        split at h2
        · next hfresh =>
          have hq : (fetchFresh env1 s p i).1 = q2 := Option.some.inj h2
          subst hq
          refine ⟨rfl, ?_⟩
          have hhit : lookupFresh
              (cacheInsert cache (cacheKey s p i) (fetchFresh env1 s p i).1 now1) now2
              (cacheKey s p i) = some (fetchFresh env1 s p i).1 := by
            rw [lookupFresh_insert_self, if_pos hfresh]
          rw [gsid_hit hhit]
        · exact absurd h2 (by simp)
      | false =>
        simp only [hst, if_false] at h2
        exact absurd h2 (by simp [lookupFresh_none_mono hle hl])
  · intro env c t hm
    exact gsid_miss hm
  · intro c t
    cases hc : cacheLookup c (cacheKey s p i) with
    | none =>
      simp only [cacheLookup_none_fresh hc, true_iff]
      intro q tt h
      exact absurd h (by simp [hc])
    | some qt =>
      obtain ⟨q0, t0⟩ := qt
      rw [cacheLookup_some_fresh hc]
      constructor
      · intro hnone q tt heq
        have h1 := Option.some.inj heq
        have ht2 : t0 = tt := congrArg Prod.snd h1
        subst ht2
        split at hnone
        · exact absurd hnone (by simp)
        · next hts => exact le_of_not_lt hts
      · intro hall
        exact if_neg (not_lt.mpr (hall q0 t0 rfl))

/-- C3, witness: the idempotence theorem at a concrete instant pair 0 and 1. -/
theorem c3_witness :
    (∀ (env2 : Env) (q2 : Quote),
      lookupFresh (get_stock_index_data allFailEnv [] 0 "SENSEX" "5d" "1h").2 1
          (cacheKey "SENSEX" "5d" "1h") = some q2 →
      q2 = (get_stock_index_data allFailEnv [] 0 "SENSEX" "5d" "1h").1 ∧
      get_stock_index_data env2 (get_stock_index_data allFailEnv [] 0 "SENSEX" "5d" "1h").2 1
          "SENSEX" "5d" "1h" =
        ((get_stock_index_data allFailEnv [] 0 "SENSEX" "5d" "1h").1,
          (get_stock_index_data allFailEnv [] 0 "SENSEX" "5d" "1h").2)) ∧
    (∀ (env : Env) (c : Cache) (t : ℚ),
      lookupFresh c t (cacheKey "SENSEX" "5d" "1h") = none →
      get_stock_index_data env c t "SENSEX" "5d" "1h" =
        ((fetchFresh env "SENSEX" "5d" "1h").1,
          if (fetchFresh env "SENSEX" "5d" "1h").2
          then cacheInsert c (cacheKey "SENSEX" "5d" "1h") (fetchFresh env "SENSEX" "5d" "1h").1 t
          else c)) ∧
    (∀ (c : Cache) (t : ℚ),
      lookupFresh c t (cacheKey "SENSEX" "5d" "1h") = none ↔
        ∀ q tt, cacheLookup c (cacheKey "SENSEX" "5d" "1h") = some (q, tt) →
          cache_ttl ≤ t - tt) :=
  c3_cache_idempotence allFailEnv [] 0 1 "SENSEX" "5d" "1h" (by norm_num)

/-! ### Claim C4 -/

/-- A one-row history frame whose index renders as 10:30 (time of day) and
01/02 (date). -/
def oneBar : List Bar :=
  [{ idx := { hasStrftime := true, timeStr := "10:30", dateStr := "01/02", strRepr := "idx" }
     close := 100 }]

/-- An environment whose history fetches all return the one-row frame. -/
def oneBarEnv : Env :=
  { historyFetch := fun _ _ _ _ => .ok oneBar
    infoFetch := fun _ _ => .error "fail"
    processRaises := false }

/-- C4, counterexample: with the requested interval 30m - intraday and at
most one hour - a fetched one-row series produces a success payload whose
chart point is labelled with the date rendering 01/02, not the time-of-day
rendering 10:30, because the source tests membership in the exact list
[5m, 15m, 1h].  This falsifies the claimed labelling rule. -/
theorem c4_counterexample :
    specIntradayLE1h "30m" = true ∧
    (get_stock_index_data oneBarEnv [] 0 "SENSEX" "1d" "30m").1.status = "success" ∧
    (get_stock_index_data oneBarEnv [] 0 "SENSEX" "1d" "30m").1.chart_data.map ChartPoint.time =
      ["01/02"] ∧
    ("01/02" : String) ≠ "10:30" := by
  refine ⟨by decide, ?_, ?_, by decide⟩ <;> decide

/-- C4 (amended): when the cache misses, processing raises no unexpected
exception, and the history loop ends with a non-empty series h, the result
has status success, current price the 2-decimal rounding of the last close,
previous close the rounding of the first close when the series has more
than one row (else of the last close), chart points the last at most 50
rows in order - each labelled by chartLabel, i.e. time-of-day exactly when
the requested interval is one of 5m, 15m, 1h - with exactly
min (length h) 50 points, and the payload is stored to the cache. -/
theorem c4_success_tier_amended (env : Env) (cache : Cache) (now : ℚ)
    (symbol period interval : String) (h : List Bar)
    (hmiss : lookupFresh cache now (cacheKey symbol period interval) = none)
    (hproc : env.processRaises = false)
    (hh : (historyLoopFull env (tickerSymbol symbol) period interval).hist = some h)
    (hne : h ≠ []) :
    (get_stock_index_data env cache now symbol period interval).1.status = "success" ∧
    (get_stock_index_data env cache now symbol period interval).1.current_price =
      round2 ((h.map Bar.close).getLastD 0) ∧
    (get_stock_index_data env cache now symbol period interval).1.previous_close =
      round2 (if 1 < h.length then (h.map Bar.close).headD 0 else (h.map Bar.close).getLastD 0) ∧
    (get_stock_index_data env cache now symbol period interval).1.chart_data =
      ((if 50 < h.length then h.drop (h.length - 50) else h).map
        (fun b => ChartPoint.mk (chartLabel interval b.idx) (round2 b.close))) ∧
    (get_stock_index_data env cache now symbol period interval).1.chart_data.length =
      min h.length 50 ∧
    (get_stock_index_data env cache now symbol period interval).2 =
      cacheInsert cache (cacheKey symbol period interval)
        (get_stock_index_data env cache now symbol period interval).1 now := by
  have hf : fetchFresh env symbol period interval =
      (successQuote (pyUpper symbol) interval h, true) := by
    unfold fetchFresh
    dsimp only
    rw [hh]
    rw [if_neg (by simp [List.isEmpty_iff, hne]), hproc]
    simp
  rw [gsid_miss hmiss, hf]
  refine ⟨rfl, rfl, rfl, rfl, ?_, rfl⟩
  show (successQuote (pyUpper symbol) interval h).chart_data.length = min h.length 50
  unfold successQuote
  dsimp only
  rw [List.length_map]
  split
  · next hlen => rw [List.length_drop]; omega
  · next hlen => omega

/-- C4, witness: the amended success-tier theorem at the one-row
environment and the interval 30m. -/
theorem c4_witness :
    (get_stock_index_data oneBarEnv [] 0 "NIFTY50" "1d" "30m").1.status = "success" ∧
    (get_stock_index_data oneBarEnv [] 0 "NIFTY50" "1d" "30m").1.current_price =
      round2 ((oneBar.map Bar.close).getLastD 0) ∧
    (get_stock_index_data oneBarEnv [] 0 "NIFTY50" "1d" "30m").1.previous_close =
      round2 (if 1 < oneBar.length then (oneBar.map Bar.close).headD 0
        else (oneBar.map Bar.close).getLastD 0) ∧
    (get_stock_index_data oneBarEnv [] 0 "NIFTY50" "1d" "30m").1.chart_data =
      ((if 50 < oneBar.length then oneBar.drop (oneBar.length - 50) else oneBar).map
        (fun b => ChartPoint.mk (chartLabel "30m" b.idx) (round2 b.close))) ∧
    (get_stock_index_data oneBarEnv [] 0 "NIFTY50" "1d" "30m").1.chart_data.length =
      min oneBar.length 50 ∧
    (get_stock_index_data oneBarEnv [] 0 "NIFTY50" "1d" "30m").2 =
      cacheInsert [] (cacheKey "NIFTY50" "1d" "30m")
        (get_stock_index_data oneBarEnv [] 0 "NIFTY50" "1d" "30m").1 0 :=
  c4_success_tier_amended oneBarEnv [] 0 "NIFTY50" "1d" "30m" oneBar rfl rfl (by decide)
    (by decide)

/-! ### Claim C5 -/

/-- C5, counterexample: with every history fetch failing, the retry loop
performs all three attempts - the call list contains probes of attempt 0,
attempt 1 and attempt 2 - yet its sleep trace is empty: no wait of any kind
happens between the provider-level retries of the historical-data fetch,
because the handler holding the 1-second backoff (line 188) is unreachable.
This falsifies the claimed fixed short backoff between retries (and a
fortiori any exponential backoff) for the historical-data fetch. -/
theorem c5_counterexample :
    (historyLoopFull allFailEnv "^BSESN" "5d" "5m").calls =
      [(0, "5m"), (0, "1h"), (0, "1d"), (1, "5m"), (1, "1h"), (1, "1d"),
        (2, "5m"), (2, "1h"), (2, "1d")] ∧
    ((historyLoopFull allFailEnv "^BSESN" "5d" "5m").calls.map Prod.fst).contains 0 = true ∧
    ((historyLoopFull allFailEnv "^BSESN" "5d" "5m").calls.map Prod.fst).contains 1 = true ∧
    (historyLoopFull allFailEnv "^BSESN" "5d" "5m").sleeps = [] := by
  refine ⟨?_, ?_, ?_, ?_⟩ <;> decide

/-- C5 (amended): the resolver attempts the primary historical-data fetch
with up to 3 attempts, trying within each attempt the interval variants in
order [requested, 1h, 1d] and accepting the first non-empty series (first
and second conjuncts: if some probe in the flattened order returns a
non-empty series, the loop returns the first such series; if none does, the
loop ends empty after probing exactly the nine (attempt, variant) pairs in
order).  Third conjunct: the loop never sleeps between retries.  Fourth
conjunct: the backoff lives in the current-price (info) fetch loop, which
on a run of three failures sleeps 2 * (attempt + 1) seconds after a
rate-limited failure - 2, 4 and 6 seconds, linear rather than exponential -
and otherwise 1 second after each failure except the last. -/
theorem c5_retry_structure_amended :
    (∀ (env : Env) (t per i : String) (h0 : List Bar),
      firstHit env t per i = some h0 →
      (historyLoopFull env t per i).hist = some h0 ∧ h0 ≠ []) ∧
    (∀ (env : Env) (t per i : String),
      firstHit env t per i = none →
      (((historyLoopFull env t per i).hist.getD []).isEmpty = true) ∧
      (historyLoopFull env t per i).calls =
        [(0, i), (0, "1h"), (0, "1d"), (1, i), (1, "1h"), (1, "1d"),
          (2, i), (2, "1h"), (2, "1d")]) ∧
    (∀ (env : Env) (t per i : String), (historyLoopFull env t per i).sleeps = []) ∧
    (∀ (env : Env) (t : String) (em : Nat → String),
      (∀ a, env.infoFetch t a = .error (em a)) →
      (infoLoopFull env t).2 =
        (if isRateLimited (em 0) then [2] else [1]) ++
        (if isRateLimited (em 1) then [4] else [1]) ++
        (if isRateLimited (em 2) then [6] else [])) := by
  refine ⟨?_, ?_, ?_, ?_⟩
  · intro env t per i h0 hf
    exact historyGo_hit 3 0 none h0 hf rfl
  · intro env t per i hf
    have h := historyGo_none 3 0 none hf rfl
    unfold historyLoopFull
    exact ⟨h.1, by rw [h.2]; rfl⟩
  · intro env t per i
    exact historyGo_sleeps 3 0 none
  · intro env t em he
    exact (infoLoop_allerr (he 0) (he 1) (he 2)).2

/-- C5, witness: the amended retry theorem applied to the all-failing
environment, discharging the no-hit hypothesis and the info-failure
hypothesis concretely. -/
theorem c5_witness :
    (((historyLoopFull allFailEnv "^BSESN" "5d" "1h").hist.getD []).isEmpty = true) ∧
    (historyLoopFull allFailEnv "^BSESN" "5d" "1h").calls =
      [(0, "1h"), (0, "1h"), (0, "1d"), (1, "1h"), (1, "1h"), (1, "1d"),
        (2, "1h"), (2, "1h"), (2, "1d")] ∧
    (infoLoopFull allFailEnv "^BSESN").2 =
      (if isRateLimited "fail" then [2] else [1]) ++
      (if isRateLimited "fail" then [4] else [1]) ++
      (if isRateLimited "fail" then [6] else []) := by
  have h1 := c5_retry_structure_amended.2.1 allFailEnv "^BSESN" "5d" "1h" (by decide)
  have h2 := c5_retry_structure_amended.2.2.2 allFailEnv "^BSESN" (fun _ => "fail")
    (fun _ => rfl)
  exact ⟨h1.1, h1.2, h2⟩

/-! ### Claim C6 -/

/-- C6: an error_fallback result is never written to the cache - whenever
the returned status is error_fallback the cache after the call is exactly
the cache before it, so a later call with the same key re-runs the provider
chain - while a mock_data result produced on a cache miss is stored: the
cache after the call maps the key to the returned payload at the call
instant. -/
theorem c6_error_fallback_not_cached (env : Env) (cache : Cache) (now : ℚ)
    (s p i : String) :
    ((get_stock_index_data env cache now s p i).1.status = "error_fallback" →
      (get_stock_index_data env cache now s p i).2 = cache) ∧
    (lookupFresh cache now (cacheKey s p i) = none →
      (get_stock_index_data env cache now s p i).1.status = "mock_data" →
      cacheLookup (get_stock_index_data env cache now s p i).2 (cacheKey s p i) =
        some ((get_stock_index_data env cache now s p i).1, now)) := by
  cases hl : lookupFresh cache now (cacheKey s p i) with
  | some q =>
    rw [gsid_hit hl]
    exact ⟨fun _ => rfl, fun hm _ => absurd hm (by simp)⟩
  | none =>
    rw [gsid_miss hl]
    constructor
    · intro hst
      cases hb : (fetchFresh env s p i).2 with
      | false => simp [hb]
      | true =>
        have : (fetchFresh env s p i).1.status ≠ "error_fallback" := by
          intro hcon
          have := (fetchFresh_store_iff env s p i).mpr hcon
          rw [hb] at this
          simp at this
        exact absurd hst this
    · intro _ hst
      cases hb : (fetchFresh env s p i).2 with
      | true =>
        simp only [hb, if_true]
        exact cacheLookup_insert_self cache (cacheKey s p i) (fetchFresh env s p i).1 now
      | false =>
        have := (fetchFresh_store_iff env s p i).mp hb
        rw [this] at hst
        exact absurd hst (by simp)

/-- An environment that fetches a series successfully but whose processing
step raises an unexpected exception, driving the resolver into the
error_fallback tier. -/
def processFailEnv : Env :=
  { historyFetch := fun _ _ _ _ => .ok oneBar
    infoFetch := fun _ _ => .error "fail"
    processRaises := true }

/-- C6, witness: with the processing-failure environment the result is
error_fallback and the cache is unchanged; with the all-failing environment
the result is mock_data and is stored under its key at the call instant. -/
theorem c6_witness :
    ((get_stock_index_data processFailEnv [] 0 "SENSEX" "5d" "1h").1.status = "error_fallback" ∧
      (get_stock_index_data processFailEnv [] 0 "SENSEX" "5d" "1h").2 = []) ∧
    ((get_stock_index_data allFailEnv [] 0 "SENSEX" "5d" "1h").1.status = "mock_data" ∧
      cacheLookup (get_stock_index_data allFailEnv [] 0 "SENSEX" "5d" "1h").2
          (cacheKey "SENSEX" "5d" "1h") =
        some ((get_stock_index_data allFailEnv [] 0 "SENSEX" "5d" "1h").1, 0)) := by
  have he : (get_stock_index_data processFailEnv [] 0 "SENSEX" "5d" "1h").1.status =
      "error_fallback" := by decide
  have hm : (get_stock_index_data allFailEnv [] 0 "SENSEX" "5d" "1h").1.status =
      "mock_data" := by decide
  refine ⟨⟨he, ?_⟩, ⟨hm, ?_⟩⟩
  · exact (c6_error_fallback_not_cached processFailEnv [] 0 "SENSEX" "5d" "1h").1 he
  · exact (c6_error_fallback_not_cached allFailEnv [] 0 "SENSEX" "5d" "1h").2 rfl hm

/-! ### Claim C7 -/

/-- A rational that is an exact multiple of one cent. -/
def isCent (x : ℚ) : Prop := ∃ k : ℤ, x = (k : ℚ) / 100

theorem isCent_round2 {x : ℚ} (h : isCent x) : round2 x = x := by
  rcases h with ⟨k, rfl⟩
  exact round2_cent k

theorem isCent_mul_int {x y : ℚ} (hx : isCent x) (hy : ∃ n : ℤ, y = (n : ℚ)) :
    isCent (x * y) := by
  rcases hx with ⟨k, rfl⟩
  rcases hy with ⟨n, rfl⟩
  exact ⟨k * n, by push_cast; ring⟩

theorem isCent_sub {x y : ℚ} (hx : isCent x) (hy : isCent y) : isCent (x - y) := by
  rcases hx with ⟨k, rfl⟩
  rcases hy with ⟨m, rfl⟩
  exact ⟨k - m, by push_cast; ring⟩

/-- The holding used by the C7 counterexample: 2 shares at average price
0.0015 with broker-reported pnl 0. -/
def cexHolding : RawHolding :=
  { tradingsymbol := "X", exchange := "NSE", quantity := 2, average_price := 3 / 2000, pnl := 0 }

/-- The quote used by the C7 counterexample: last price 1.003. -/
def cexQuote : QuoteData := { last_price := some (1003 / 1000), ohlc := some { close := some 1 } }

/-- C7, counterexample: for the holding with quantity 2, average price
0.0015, broker pnl 0 and current price 1.003, the broker pnl is below the
0.01 threshold, yet the output pnl (2.00) equals neither the difference of
the output fields totalValue - investedValue (2.01 - 0.00) nor the raw
computed value currentPrice * quantity - averagePrice * quantity (2.003),
and the output investedValue (0.00) is not averagePrice * quantity (0.003):
the claimed exact equalities fail because every output field is rounded to
two decimals. -/
theorem c7_counterexample :
    |cexHolding.pnl| < 1 / 100 ∧
    (processHolding cexHolding (some cexQuote) (.error "na")).pnl ≠
      (processHolding cexHolding (some cexQuote) (.error "na")).totalValue -
        (processHolding cexHolding (some cexQuote) (.error "na")).investedValue ∧
    (processHolding cexHolding (some cexQuote) (.error "na")).pnl ≠
      (1003 / 1000 : ℚ) * 2 - (3 / 2000 : ℚ) * 2 ∧
    (processHolding cexHolding (some cexQuote) (.error "na")).investedValue ≠
      cexHolding.average_price * cexHolding.quantity := by
  norm_num [processHolding, resolvePrices, extractPrices, cexHolding, cexQuote,
    round2, round_eq]

/-- C7 (amended): for every holding whose quantity is an integer and whose
average price, broker pnl and resolved current price are exact multiples of
0.01, the output investedValue is exactly averagePrice * quantity, the
output totalValue exactly currentPrice * quantity, the output pnl exactly
the computed totalValue - investedValue when the broker pnl has magnitude
below 0.01 and exactly the broker pnl otherwise, and the output pnlPercent
is the 2-decimal rounding of pnl / investedValue * 100 (0 when the
invested value is not positive).  In particular broker pnl 0 with computed
150 yields 150, and broker pnl 42 yields 42.  On sub-cent inputs the
equalities hold only up to the 2-decimal output rounding
(see the counterexample). -/
theorem c7_holdings_pnl_amended (h : RawHolding) (batch : Option QuoteData)
    (indiv : Except String (Option QuoteData))
    (hq : ∃ n : ℤ, h.quantity = (n : ℚ))
    (ha : isCent h.average_price)
    (hp : isCent h.pnl)
    (hc : isCent (resolvePrices h batch indiv).1) :
    (processHolding h batch indiv).investedValue = h.average_price * h.quantity ∧
    (processHolding h batch indiv).totalValue =
      (resolvePrices h batch indiv).1 * h.quantity ∧
    (processHolding h batch indiv).pnl =
      (if |h.pnl| < 1 / 100
        then (processHolding h batch indiv).totalValue -
          (processHolding h batch indiv).investedValue
        else h.pnl) ∧
    (processHolding h batch indiv).pnlPercent =
      round2 (if 0 < (processHolding h batch indiv).investedValue
        then (processHolding h batch indiv).pnl /
          (processHolding h batch indiv).investedValue * 100
        else 0) := by
  have hInv : isCent (h.average_price * h.quantity) := isCent_mul_int ha hq
  have hTot : isCent ((resolvePrices h batch indiv).1 * h.quantity) := isCent_mul_int hc hq
  have hPnl : isCent (if |h.pnl| < 1 / 100
      then (resolvePrices h batch indiv).1 * h.quantity - h.average_price * h.quantity
      else h.pnl) := by
    split
    · exact isCent_sub hTot hInv
    · exact hp
  have e1 : (processHolding h batch indiv).investedValue =
      h.average_price * h.quantity := by
    show round2 (h.average_price * h.quantity) = _
    exact isCent_round2 hInv
  have e2 : (processHolding h batch indiv).totalValue =
      (resolvePrices h batch indiv).1 * h.quantity := by
    show round2 ((resolvePrices h batch indiv).1 * h.quantity) = _
    exact isCent_round2 hTot
  have e3 : (processHolding h batch indiv).pnl =
      (if |h.pnl| < 1 / 100
        then (resolvePrices h batch indiv).1 * h.quantity - h.average_price * h.quantity
        else h.pnl) := by
    show round2 _ = _
    exact isCent_round2 hPnl
  refine ⟨e1, e2, ?_, ?_⟩
  · rw [e3, e1, e2]
  · show round2 (if 0 < h.average_price * h.quantity
        then (if |h.pnl| < 1 / 100
          then (resolvePrices h batch indiv).1 * h.quantity - h.average_price * h.quantity
          else h.pnl) / (h.average_price * h.quantity) * 100
        else 0) = _
    rw [e1, e3]

/-- The holding used by the C7 witness: 10 shares at average price 100 with
broker-reported pnl 0; the quote resolves the current price to 115. -/
def wHolding : RawHolding :=
  { tradingsymbol := "TCS", exchange := "NSE", quantity := 10, average_price := 100, pnl := 0 }

/-- The quote used by the C7 witness. -/
def wQuote : QuoteData := { last_price := some 115, ohlc := some { close := some 110 } }

/-- C7, witness: the amended theorem at the cent-valued holding above; in
this instance the hypotheses hold with quantity 10, average price 10000
cents, broker pnl 0 and current price 11500 cents. -/
theorem c7_witness :
    (processHolding wHolding (some wQuote) (.error "na")).investedValue =
      wHolding.average_price * wHolding.quantity ∧
    (processHolding wHolding (some wQuote) (.error "na")).totalValue =
      (resolvePrices wHolding (some wQuote) (.error "na")).1 * wHolding.quantity ∧
    (processHolding wHolding (some wQuote) (.error "na")).pnl =
      (if |wHolding.pnl| < 1 / 100
        then (processHolding wHolding (some wQuote) (.error "na")).totalValue -
          (processHolding wHolding (some wQuote) (.error "na")).investedValue
        else wHolding.pnl) ∧
    (processHolding wHolding (some wQuote) (.error "na")).pnlPercent =
      round2 (if 0 < (processHolding wHolding (some wQuote) (.error "na")).investedValue
        then (processHolding wHolding (some wQuote) (.error "na")).pnl /
          (processHolding wHolding (some wQuote) (.error "na")).investedValue * 100
        else 0) :=
  c7_holdings_pnl_amended wHolding (some wQuote) (.error "na")
    ⟨10, by norm_num [wHolding]⟩
    ⟨10000, by norm_num [wHolding]⟩
    ⟨0, by norm_num [wHolding]⟩
    ⟨11500, by norm_num [resolvePrices, extractPrices, wHolding, wQuote]⟩

/-! ### Claim C8 -/

/-- C8: when every broker call of the index path fails - the recent
historical fetch raises for every token and the quote call raises for every
symbol - get_index_data_from_zerodha returns none for every index name (no
mock substitution), and the /api/indexes body returns exactly the explicit
zero-value entries (price 0, change 0, empty chart) for SENSEX and NIFTY50:
it never returns mock prices on the broker path. -/
theorem c8_broker_error_null (env : BrokerEnv)
    (h5 : ∀ tok, IsErr (env.historical5d tok))
    (hq : ∀ sym, IsErr (env.quote sym)) :
    (∀ name, get_index_data_from_zerodha env name = none) ∧
    get_indexes env = [zeroEntry "SENSEX", zeroEntry "NIFTY50"] := by
  have hnone : ∀ name, get_index_data_from_zerodha env name = none := by
    intro name
    unfold get_index_data_from_zerodha
    cases ht : indexToken name with
    | none => rfl
    | some tok =>
      cases hs : indexKiteSymbol name with
      | none => rfl
      | some sym =>
        dsimp only
        have hr : zerodhaRecentPrices env tok sym = none := by
          unfold zerodhaRecentPrices
          rcases h5 tok with ⟨m5, e5⟩
          rw [e5]
          rcases hq sym with ⟨mq, eq5⟩
          rw [eq5]
        rw [hr]
  refine ⟨hnone, ?_⟩
  unfold get_indexes
  rw [List.map_cons, List.map_cons, List.map_nil, hnone "SENSEX", hnone "NIFTY50"]

/-- A broker environment in which every call fails. -/
def failBroker : BrokerEnv :=
  { historical5d := fun _ => .error "fail"
    historical1y := fun _ => .error "fail"
    quote := fun _ => .error "fail" }

/-- C8, witness: the broker-error theorem at the all-failing broker
environment. -/
theorem c8_witness :
    (∀ name, get_index_data_from_zerodha failBroker name = none) ∧
    get_indexes failBroker = [zeroEntry "SENSEX", zeroEntry "NIFTY50"] :=
  c8_broker_error_null failBroker (fun _ => ⟨"fail", rfl⟩) (fun _ => ⟨"fail", rfl⟩)

/-! ### Claim C9 -/

/-- C9: the streaming generator always emits exactly one terminal event; it
is the last event; every earlier event is a content event; the terminal is
the error event carrying the first exception message when the provider
stream fails, and the done event otherwise; and a done event never appears
when the stream fails.  Since generate_stream is a total function, no
exception propagates. -/
theorem c9_stream_termination (items : List (Except String Chunk)) :
    (generate_stream items).countP isTerm = 1 ∧
    (generate_stream items).getLast? = some
      (match firstErr items with
        | some m => Event.error m
        | none => Event.done) ∧
    (∀ e ∈ (generate_stream items).dropLast, isContentEv e = true) ∧
    (∀ m, firstErr items = some m → Event.done ∉ generate_stream items) := by
  induction items with
  | nil =>
    refine ⟨by decide, rfl, by simp [generate_stream], ?_⟩
    intro m hm
    exact absurd hm (by simp [firstErr])
  | cons x rest ih =>
    cases x with
    | error m =>
      refine ⟨by simp [generate_stream, isTerm], rfl, by simp [generate_stream], ?_⟩
      intro m' _
      simp [generate_stream]
    | ok c =>
      have hne := generate_stream_ne_nil rest
      have hgs : generate_stream (.ok c :: rest) =
          (processChunk c).toList ++ generate_stream rest := rfl
      have hfe : firstErr (.ok c :: rest) = firstErr rest := rfl
      have htl : (processChunk c).toList.countP isTerm = 0 := by
        unfold processChunk
        cases c.choices with
        | nil => rfl
        | cons ch l =>
          dsimp only
          cases ch.delta.content with
          | none => rfl
          | some s => rfl
      have hct : ∀ e ∈ (processChunk c).toList, isContentEv e = true := by
        unfold processChunk
        cases c.choices with
        | nil => simp
        | cons ch l =>
          dsimp only
          cases ch.delta.content with
          | none => simp
          | some s => simp [isContentEv]
      refine ⟨?_, ?_, ?_, ?_⟩
      · rw [hgs, List.countP_append, htl, ih.1]
      · rw [hgs, hfe, List.getLast?_append]
        rw [ih.2.1]
        rfl
      · rw [hgs, List.dropLast_append_of_ne_nil _ hne]
        intro e he
        rcases List.mem_append.mp he with he | he
        · exact hct e he
        · exact ih.2.2.1 e he
      · intro m hm
        rw [hgs]
        intro hmem
        rcases List.mem_append.mp hmem with hmem | hmem
        · have := hct _ hmem
          simp [isContentEv] at this
        · exact ih.2.2.2 m (hfe ▸ hm) hmem

/-- C9, witness: the termination theorem instantiated at a provider stream
that yields three content fragments and then raises. -/
theorem c9_witness :
    (generate_stream
      [.ok { choices := [{ delta := { content := some "a" } }] },
       .ok { choices := [{ delta := { content := some "b" } }] },
       .ok { choices := [{ delta := { content := some "c" } }] },
       .error "boom"]).countP isTerm = 1 ∧
    (generate_stream
      [.ok { choices := [{ delta := { content := some "a" } }] },
       .ok { choices := [{ delta := { content := some "b" } }] },
       .ok { choices := [{ delta := { content := some "c" } }] },
       .error "boom"]).getLast? = some
      (match firstErr
        [.ok { choices := [{ delta := { content := some "a" } }] },
         .ok { choices := [{ delta := { content := some "b" } }] },
         .ok { choices := [{ delta := { content := some "c" } }] },
         .error "boom"] with
        | some m => Event.error m
        | none => Event.done) ∧
    (∀ e ∈ (generate_stream
      [.ok { choices := [{ delta := { content := some "a" } }] },
       .ok { choices := [{ delta := { content := some "b" } }] },
       .ok { choices := [{ delta := { content := some "c" } }] },
       .error "boom"]).dropLast, isContentEv e = true) ∧
    (∀ m, firstErr
        [.ok { choices := [{ delta := { content := some "a" } }] },
         .ok { choices := [{ delta := { content := some "b" } }] },
         .ok { choices := [{ delta := { content := some "c" } }] },
         .error "boom"] = some m →
      Event.done ∉ generate_stream
        [.ok { choices := [{ delta := { content := some "a" } }] },
         .ok { choices := [{ delta := { content := some "b" } }] },
         .ok { choices := [{ delta := { content := some "c" } }] },
         .error "boom"]) :=
  c9_stream_termination
    [.ok { choices := [{ delta := { content := some "a" } }] },
     .ok { choices := [{ delta := { content := some "b" } }] },
     .ok { choices := [{ delta := { content := some "c" } }] },
     .error "boom"]

/-! ### Claim C10 -/

theorem data_append (s t : String) : (s ++ t).data = s.data ++ t.data := by
  cases s; cases t; rfl

/-- C10: the cache key is built from the raw symbol before uppercasing, so
the keys for sensex and SENSEX differ for every period and interval
(first conjunct); nevertheless both calls return a payload whose symbol
field is the uppercased SENSEX (second and third conjuncts, shown on the
mock tier); the call with the lowercase symbol stores its payload under its
own lowercase key (fourth conjunct) and the cache it produces still misses
for the uppercase key (fifth conjunct), so the two spellings consult and
populate distinct entries; and distinct triples can collide when a
component contains an underscore: A_B, C, D and A, B_C, D share the key
(sixth conjunct). -/
theorem c10_cache_key_raw_symbol (p i : String) :
    cacheKey "sensex" p i ≠ cacheKey "SENSEX" p i ∧
    (get_stock_index_data allFailEnv [] 0 "sensex" p i).1.symbol = "SENSEX" ∧
    (get_stock_index_data allFailEnv [] 0 "SENSEX" p i).1.symbol = "SENSEX" ∧
    cacheLookup (get_stock_index_data allFailEnv [] 0 "sensex" p i).2 (cacheKey "sensex" p i) =
      some ((get_stock_index_data allFailEnv [] 0 "sensex" p i).1, 0) ∧
    lookupFresh (get_stock_index_data allFailEnv [] 0 "sensex" p i).2 0
      (cacheKey "SENSEX" p i) = none ∧
    cacheKey "A_B" "C" "D" = cacheKey "A" "B_C" "D" := by
  have hkey : cacheKey "sensex" p i ≠ cacheKey "SENSEX" p i := by
    intro h
    have hd := congrArg String.data h
    simp only [cacheKey, data_append, List.append_assoc] at hd
    simp only [List.cons_append, List.cons.injEq] at hd
    exact absurd hd.1 (by decide)
  have hmiss : ∀ s : String, lookupFresh ([] : Cache) 0 (cacheKey s p i) = none := fun _ => rfl
  have hlo : get_stock_index_data allFailEnv [] 0 "sensex" p i =
      ((mockQuote (pyUpper "sensex") "mock_data"),
        cacheInsert [] (cacheKey "sensex" p i) (mockQuote (pyUpper "sensex") "mock_data") 0) := by
    rw [gsid_miss (hmiss "sensex"), fetchFresh_allfail allFailEnv "sensex" p i
      (fun a iv => allFailEnv_spec.1 _ a _ iv) (fun a => allFailEnv_spec.2 _ a)]
    rfl
  have hup : get_stock_index_data allFailEnv [] 0 "SENSEX" p i =
      ((mockQuote (pyUpper "SENSEX") "mock_data"),
        cacheInsert [] (cacheKey "SENSEX" p i) (mockQuote (pyUpper "SENSEX") "mock_data") 0) := by
    rw [gsid_miss (hmiss "SENSEX"), fetchFresh_allfail allFailEnv "SENSEX" p i
      (fun a iv => allFailEnv_spec.1 _ a _ iv) (fun a => allFailEnv_spec.2 _ a)]
    rfl
  refine ⟨hkey, ?_, ?_, ?_, ?_, by decide⟩
  · rw [hlo]
    show pyUpper "sensex" = "SENSEX"
    decide
  · rw [hup]
    show pyUpper "SENSEX" = "SENSEX"
    decide
  · rw [hlo]
    exact cacheLookup_insert_self [] (cacheKey "sensex" p i) _ 0
  · rw [hlo]
    show lookupFresh (cacheInsert [] (cacheKey "sensex" p i) _ 0) 0 (cacheKey "SENSEX" p i) = none
    unfold lookupFresh cacheLookup cacheInsert
    rw [List.find?]
    rw [decide_eq_false (by exact fun hcon => hkey hcon)]
    rfl

/-- C10, witness: the raw-key theorem at the period 5d and interval 1h. -/
theorem c10_witness :
    cacheKey "sensex" "5d" "1h" ≠ cacheKey "SENSEX" "5d" "1h" ∧
    (get_stock_index_data allFailEnv [] 0 "sensex" "5d" "1h").1.symbol = "SENSEX" ∧
    (get_stock_index_data allFailEnv [] 0 "SENSEX" "5d" "1h").1.symbol = "SENSEX" ∧
    cacheLookup (get_stock_index_data allFailEnv [] 0 "sensex" "5d" "1h").2
      (cacheKey "sensex" "5d" "1h") =
      some ((get_stock_index_data allFailEnv [] 0 "sensex" "5d" "1h").1, 0) ∧
    lookupFresh (get_stock_index_data allFailEnv [] 0 "sensex" "5d" "1h").2 0
      (cacheKey "SENSEX" "5d" "1h") = none ∧
    cacheKey "A_B" "C" "D" = cacheKey "A" "B_C" "D" :=
  c10_cache_key_raw_symbol "5d" "1h"

end StockGPT
